import Mathlib

/-!
Verification of the no-limit holdem betting round engine
(`rlcard/games/nolimitholdem/round.py`).

The Python source is shallowly embedded below.  Python integers are
modelled as `Int` (chip stacks, the consensus counters) or as `Nat`
(the pot, which the external interface guarantees non-negative, and
indices).  `int(pot / 4)`, `int(pot / 2)` and `int(pot * 2)` on a
non-negative pot are truncating divisions and an exact doubling, so
they are modelled with `Nat` division and multiplication.  Python
`max(raised)` on a non-empty list is `listMax`; the degenerate empty
list (a `ValueError` in Python) is given the junk value 0 and is ruled
out by the hypotheses of the theorems.  List indexing uses `getD`
together with in-bounds hypotheses.  The unbounded `while` loop that
skips folded players is modelled by `skipFolded` with fuel
`num_players`: the loop inspects only statuses that it never changes,
so if no non-folded seat exists among the `num_players` seats the
Python loop runs forever, which the model reports as
`ProceedResult.diverge`.  The `raise Exception("Player in negative
stake")` branch is `ProceedResult.negativeStake`, carrying the state
at the moment the exception fires.
-/

namespace Nolimitholdem

/-- The `Action` enum of the source, in declaration order. -/
inductive Action where
  | fold
  | check
  | call
  | raiseQuarterPot
  | raiseHalfPot
  | raisePot
  | raise2Pot
  | allIn
deriving DecidableEq, Repr, Inhabited

/-- The `PlayerStatus` enum consumed from `rlcard.games.limitholdem`. -/
inductive PlayerStatus where
  | alive
  | folded
  | allin
deriving DecidableEq, Repr, Inhabited

/-- Modelled from the spec: the Player collaborator of section 6 is not under
`src/`; it exposes `remaining_chips` and a status. -/
structure Player where
  remained_chips : Int
  status : PlayerStatus
deriving DecidableEq, Repr, Inhabited

/-- Modelled from the spec: `commit(amount)` of the Player collaborator
"decreases `remaining_chips` by `amount`"; the engine, not the player,
enforces the non-negative-result invariant. -/
def Player.bet (p : Player) (chips : Int) : Player :=
  { p with remained_chips := p.remained_chips - chips }

/-- The mutable state of `NolimitholdemRound` together with the pot read from
the dealer collaborator.  `init_raise_amount` and the randomness source are
stored by the constructor but never read by the round logic, so they are
omitted. -/
structure RoundState where
  game_pointer : Nat
  num_players : Nat
  pot : Nat
  not_raise_num : Int
  not_playing_num : Int
  raised : List Int
deriving DecidableEq, Repr

/-- Python `max` on a list of ints; junk value 0 on the empty list. -/
def listMax : List Int → Int
  | [] => 0
  | x :: xs => xs.foldl max x

/-- The expression `max(self.raised) - self.raised[self.game_pointer]`
computed in `proceed_round` (CALL branch) and `get_nolimit_legal_actions`. -/
def callDiff (st : RoundState) : Int :=
  listMax st.raised - st.raised.getD st.game_pointer 0

/-- The player `players[self.game_pointer]`. -/
def currentPlayer (st : RoundState) (players : List Player) : Player :=
  players.getD st.game_pointer default

/-- `start_new_round`: record the pointer, reset `not_raise_num`, and install
the seed.  Python tests `if raised:`, which is falsy for both `None` and the
empty list. -/
def start_new_round (st : RoundState) (game_pointer : Nat)
    (raised : Option (List Int)) : RoundState :=
  { st with
    game_pointer := game_pointer
    not_raise_num := 0
    raised :=
      match raised with
      | some l => if l.isEmpty then List.replicate st.num_players 0 else l
      | none => List.replicate st.num_players 0 }

/-- The action dispatch of `proceed_round` (lines 78-117): the state after the
per-action mutations together with the mutated acting player, before the
negative-stake check. -/
def moveStep (st : RoundState) (players : List Player) (action : Action) :
    RoundState × Player :=
  let gp := st.game_pointer
  let player := currentPlayer st players
  match action with
  | .check =>
      ({ st with not_raise_num := st.not_raise_num + 1 }, player)
  | .call =>
      ({ st with
          raised := st.raised.set gp (listMax st.raised)
          not_raise_num := st.not_raise_num + 1 },
       player.bet (callDiff st))
  | .raiseQuarterPot =>
      let quantity : Int := ((st.pot / 4 : Nat) : Int)
      ({ st with
          raised := st.raised.set gp (st.raised.getD gp 0 + quantity)
          not_raise_num := 1 },
       player.bet quantity)
  | .allIn =>
      let q := player.remained_chips
      ({ st with
          raised := st.raised.set gp (q + st.raised.getD gp 0)
          not_raise_num := 1 },
       player.bet q)
  | .raisePot =>
      let q : Int := (st.pot : Int)
      ({ st with
          raised := st.raised.set gp (st.raised.getD gp 0 + q)
          not_raise_num := 1 },
       player.bet q)
  | .raiseHalfPot =>
      let quantity : Int := ((st.pot / 2 : Nat) : Int)
      ({ st with
          raised := st.raised.set gp (st.raised.getD gp 0 + quantity)
          not_raise_num := 1 },
       player.bet quantity)
  | .raise2Pot =>
      let quantity : Int := ((st.pot * 2 : Nat) : Int)
      ({ st with
          raised := st.raised.set gp (st.raised.getD gp 0 + quantity)
          not_raise_num := 1 },
       player.bet quantity)
  | .fold =>
      (st, { player with status := PlayerStatus.folded })

/-- The `while players[self.game_pointer].status == FOLDED` loop, with fuel. -/
def skipFolded (players : List Player) (n : Nat) : Nat → Nat → Option Nat
  | _, 0 => none
  | gp, fuel + 1 =>
      if (players.getD gp default).status = PlayerStatus.folded then
        skipFolded players n ((gp + 1) % n) fuel
      else some gp

/-- Outcome of one `proceed_round` call.  `negativeStake` is the
`raise Exception("Player in negative stake")` branch and carries the state at
the moment the exception fires; `diverge` is the infinite skip loop reached
when every seat is folded. -/
inductive ProceedResult where
  | ok (st : RoundState) (players : List Player)
  | negativeStake (st : RoundState) (players : List Player)
  | diverge (st : RoundState) (players : List Player)
deriving DecidableEq, Repr

def ProceedResult.state : ProceedResult → RoundState
  | .ok st _ => st
  | .negativeStake st _ => st
  | .diverge st _ => st

def ProceedResult.playersOut : ProceedResult → List Player
  | .ok _ ps => ps
  | .negativeStake _ ps => ps
  | .diverge _ ps => ps

def ProceedResult.isNegativeStake : ProceedResult → Bool
  | .negativeStake _ _ => true
  | _ => false

def ProceedResult.isOk : ProceedResult → Bool
  | .ok _ _ => true
  | _ => false

def ProceedResult.isDiverge : ProceedResult → Bool
  | .diverge _ _ => true
  | _ => false

/-- Lines 122-123: a player left with exactly zero chips who has not folded
is promoted to all-in. -/
def promoteAllin (p : Player) : Player :=
  if p.remained_chips = 0 ∧ p.status ≠ PlayerStatus.folded then
    { p with status := PlayerStatus.allin }
  else p

/-- Lines 125-131: advance the pointer one seat and apply the consensus
corrections for an all-in or folded acting player. -/
def advanceState (st1 : RoundState) (gp : Nat) (p2 : Player) : RoundState :=
  let st2 := { st1 with game_pointer := (gp + 1) % st1.num_players }
  let st3 :=
    if p2.status = PlayerStatus.allin then
      { st2 with
          not_playing_num := st2.not_playing_num + 1
          not_raise_num := st2.not_raise_num - 1 }
    else st2
  if p2.status = PlayerStatus.folded then
    { st3 with not_playing_num := st3.not_playing_num + 1 }
  else st3

/-- The players list after the dispatch and the all-in promotion have been
written back to the acting seat (the non-exception path). -/
def postPlayers (st : RoundState) (players : List Player) (action : Action) :
    List Player :=
  players.set st.game_pointer (promoteAllin (moveStep st players action).2)

/-- The round state after the dispatch, the pointer advance and the consensus
corrections, before the folded-seat skip loop (the non-exception path). -/
def postState (st : RoundState) (players : List Player) (action : Action) :
    RoundState :=
  advanceState (moveStep st players action).1 st.game_pointer
    (promoteAllin (moveStep st players action).2)

/-- `proceed_round` (lines 65-137): dispatch on the action (`moveStep`),
negative-stake check, promotion to all-in at zero chips, pointer advance and
consensus corrections (`advanceState`), and the folded-seat skip loop. -/
def proceed_round (st : RoundState) (players : List Player) (action : Action) :
    ProceedResult :=
  if (moveStep st players action).2.remained_chips < 0 then
    .negativeStake (moveStep st players action).1
      (players.set st.game_pointer (moveStep st players action).2)
  else
    match skipFolded (postPlayers st players action)
        (postState st players action).num_players
        (postState st players action).game_pointer
        (postState st players action).num_players with
    | some ptr =>
        .ok { postState st players action with game_pointer := ptr }
          (postPlayers st players action)
    | none =>
        .diverge (postState st players action) (postPlayers st players action)

/-- The full action list `list(Action)`. -/
def fullActions : List Action :=
  [.fold, .check, .call, .raiseQuarterPot, .raiseHalfPot, .raisePot,
   .raise2Pot, .allIn]

/-- Value of `full_actions` after the `pot * 2 > remained_chips` removal
(line 166). -/
def fa1 (st : RoundState) (players : List Player) : List Action :=
  if ((st.pot * 2 : Nat) : Int) > (currentPlayer st players).remained_chips then
    fullActions.erase .raise2Pot
  else fullActions

/-- Value of `full_actions` after the `pot > remained_chips` removal
(line 169). -/
def fa2 (st : RoundState) (players : List Player) : List Action :=
  if (st.pot : Int) > (currentPlayer st players).remained_chips then
    (fa1 st players).erase .raisePot
  else fa1 st players

/-- Value of `full_actions` after the `int(pot / 2) > remained_chips` removal
(line 172). -/
def fa3 (st : RoundState) (players : List Player) : List Action :=
  if ((st.pot / 2 : Nat) : Int) > (currentPlayer st players).remained_chips then
    (fa2 st players).erase .raiseHalfPot
  else fa2 st players

/-- Value of `full_actions` after the `int(pot / 4) > remained_chips` removal
(line 175). -/
def fa4 (st : RoundState) (players : List Player) : List Action :=
  if ((st.pot / 4 : Nat) : Int) > (currentPlayer st players).remained_chips then
    (fa3 st players).erase .raiseQuarterPot
  else fa3 st players

/-- Value of `full_actions` after the must-actually-raise removal of
`RAISE_HALF_POT` (line 180). -/
def fa5 (st : RoundState) (players : List Player) : List Action :=
  if Action.raiseHalfPot ∈ fa4 st players ∧
      ((st.pot / 2 : Nat) : Int) + st.raised.getD st.game_pointer 0 ≤
        listMax st.raised then
    (fa4 st players).erase .raiseHalfPot
  else fa4 st players

/-- Value of `full_actions` after the must-actually-raise removal of
`RAISE_QUARTER_POT` (line 184). -/
def fa6 (st : RoundState) (players : List Player) : List Action :=
  if Action.raiseQuarterPot ∈ fa5 st players ∧
      ((st.pot / 4 : Nat) : Int) + st.raised.getD st.game_pointer 0 ≤
        listMax st.raised then
    (fa5 st players).erase .raiseQuarterPot
  else fa5 st players

/-- The stack-based filtering stage of `get_nolimit_legal_actions`
(lines 150-186): if the amount owed forces an all-in call, every raise
variant is removed (lines 158-163); otherwise the removals of lines 164-186,
rendered stage by stage as `fa1` to `fa6`. -/
def raiseFilter (st : RoundState) (players : List Player) : List Action :=
  if callDiff st > 0 ∧ callDiff st ≥ (currentPlayer st players).remained_chips then
    ((((fullActions.erase .raiseHalfPot).erase .raisePot).erase
        .allIn).erase .raise2Pot).erase .raiseQuarterPot
  else
    fa6 st players

/-- `action_history[len(action_history) - 1] in (Action.CHECK, Action.CALL)`
for a non-empty history. -/
def lastInCheckCall (h : List Action) : Prop :=
  h.getLast? = some Action.check ∨ h.getLast? = some Action.call

instance instDecLastInCheckCall (h : List Action) :
    Decidable (lastInCheckCall h) := by
  unfold lastInCheckCall; infer_instance

/-- Guard of the first history branch: street 0 and (empty history or the last
action was not a check or call). -/
def streetRule1 (rc : Nat) (h : List Action) : Prop :=
  rc = 0 ∧ (h = [] ∨ ¬ lastInCheckCall h)

/-- Guard of the second history branch: a later street with empty history. -/
def streetRule2 (rc : Nat) (h : List Action) : Prop :=
  rc ≠ 0 ∧ h = []

/-- Guard of the third history branch: non-empty history ending in a check or
call. -/
def streetRule3 (h : List Action) : Prop :=
  h ≠ [] ∧ lastInCheckCall h

/-- Guard of the fourth history branch: non-empty history ending in a raise or
all-in (or a fold). -/
def streetRule4 (h : List Action) : Prop :=
  h ≠ [] ∧ ¬ lastInCheckCall h

instance instDecStreetRule1 (rc : Nat) (h : List Action) :
    Decidable (streetRule1 rc h) := by
  unfold streetRule1; infer_instance

instance instDecStreetRule2 (rc : Nat) (h : List Action) :
    Decidable (streetRule2 rc h) := by
  unfold streetRule2; infer_instance

instance instDecStreetRule3 (h : List Action) : Decidable (streetRule3 h) := by
  unfold streetRule3; infer_instance

instance instDecStreetRule4 (h : List Action) : Decidable (streetRule4 h) := by
  unfold streetRule4; infer_instance

/-- The street and history stage of `get_nolimit_legal_actions`
(lines 188-202), an if/elif chain. -/
def historyFilter (rc : Nat) (h : List Action) (l : List Action) :
    List Action :=
  if streetRule1 rc h then l.erase .check
  else if streetRule2 rc h then l.erase .call
  else if streetRule3 h then l.erase .call
  else if streetRule4 h then l.erase .check
  else l

/-- `get_nolimit_legal_actions` (lines 139-204). -/
def get_nolimit_legal_actions (st : RoundState) (players : List Player)
    (action_history : List Action) (round_counter : Nat) : List Action :=
  historyFilter round_counter action_history (raiseFilter st players)

/-- `is_over` (lines 206-215). -/
def is_over (st : RoundState) : Bool :=
  st.not_raise_num + st.not_playing_num ≥ (st.num_players : Int)

/-- Repeated application of `proceed_round` with CHECK; `none` once a step
raises or diverges. -/
def iterChecks : Nat → RoundState → List Player →
    Option (RoundState × List Player)
  | 0, st, ps => some (st, ps)
  | j + 1, st, ps =>
      match proceed_round st ps .check with
      | .ok st' ps' => iterChecks j st' ps'
      | _ => none

/-- Chip amount moved by each action, for the statements of the theorems:
the call difference, the pot fractions, or the whole stack for all-in. -/
def actionQuantity (st : RoundState) (players : List Player) : Action → Int
  | .fold => 0
  | .check => 0
  | .call => callDiff st
  | .raiseQuarterPot => ((st.pot / 4 : Nat) : Int)
  | .raiseHalfPot => ((st.pot / 2 : Nat) : Int)
  | .raisePot => (st.pot : Int)
  | .raise2Pot => ((st.pot * 2 : Nat) : Int)
  | .allIn => (currentPlayer st players).remained_chips

/-- The per-action value written to `not_raise_num` by the dispatch of
`proceed_round`, before the all-in correction. -/
def rawNotRaise (st : RoundState) : Action → Int
  | .check => st.not_raise_num + 1
  | .call => st.not_raise_num + 1
  | .fold => st.not_raise_num
  | _ => 1

/-! ### List and `listMax` helper lemmas -/

lemma getD_set_self {α : Type} (l : List α) (i : Nat) (v d : α)
    (h : i < l.length) : (l.set i v).getD i d = v := by
  rw [List.getD_eq_getElem?_getD, List.getElem?_set_self (by simpa using h)]
  rfl

lemma getD_set_ne {α : Type} (l : List α) (i j : Nat) (v d : α) (h : i ≠ j) :
    (l.set i v).getD j d = l.getD j d := by
  rw [List.getD_eq_getElem?_getD, List.getElem?_set_ne h,
    ← List.getD_eq_getElem?_getD]

lemma getD_mem {α : Type} (l : List α) (i : Nat) (d : α) (h : i < l.length) :
    l.getD i d ∈ l := by
  rw [List.getD_eq_getElem?_getD, List.getElem?_eq_getElem h]
  exact List.getElem_mem h

lemma mem_set_cases {α : Type} (l : List α) (i : Nat) (v x : α)
    (h : x ∈ l.set i v) : x = v ∨ x ∈ l := by
  have := List.mem_or_eq_of_mem_set h
  tauto

lemma le_foldl_max (xs : List Int) (a : Int) : a ≤ xs.foldl max a := by
  induction xs generalizing a with
  | nil => simp
  | cons y ys ih => exact le_trans (le_max_left a y) (ih (max a y))

lemma mem_le_foldl_max (xs : List Int) (a x : Int) (hx : x ∈ xs) :
    x ≤ xs.foldl max a := by
  induction xs generalizing a with
  | nil => simp at hx
  | cons y ys ih =>
    rcases List.mem_cons.mp hx with rfl | hx
    · exact le_trans (le_max_right a x) (le_foldl_max ys (max a x))
    · exact ih (max a y) hx

lemma mem_le_listMax (l : List Int) (x : Int) (hx : x ∈ l) : x ≤ listMax l := by
  cases l with
  | nil => simp at hx
  | cons y ys =>
    rcases List.mem_cons.mp hx with rfl | hx
    · exact le_foldl_max ys x
    · exact mem_le_foldl_max ys y x hx

lemma getD_le_listMax (l : List Int) (i : Nat) (h : i < l.length) :
    l.getD i 0 ≤ listMax l :=
  mem_le_listMax l _ (getD_mem l i 0 h)

lemma callDiff_nonneg (st : RoundState) (h : st.game_pointer < st.raised.length) :
    0 ≤ callDiff st := by
  have := getD_le_listMax st.raised st.game_pointer h
  unfold callDiff
  omega

/-! ### Membership through guarded erasures -/

lemma mem_ite_erase {α : Type} [DecidableEq α] {a b : α} {l : List α}
    (c : Prop) [Decidable c] (hm : a ∈ l) (hne : a ≠ b) :
    a ∈ (if c then l.erase b else l) := by
  split_ifs
  · exact (List.mem_erase_of_ne hne).2 hm
  · exact hm

lemma not_mem_ite_erase {α : Type} [DecidableEq α] {a b : α} {l : List α}
    (c : Prop) [Decidable c] (hm : a ∉ l) :
    a ∉ (if c then l.erase b else l) := by
  split_ifs
  · exact fun h => hm (List.mem_of_mem_erase h)
  · exact hm

lemma nodup_ite_erase {α : Type} [DecidableEq α] {b : α} {l : List α}
    (c : Prop) [Decidable c] (h : l.Nodup) :
    (if c then l.erase b else l).Nodup := by
  split_ifs
  · exact h.erase b
  · exact h

lemma mem_ite_erase_iff_of_ne {α : Type} [DecidableEq α] {a b : α}
    {l : List α} (c : Prop) [Decidable c] (hne : a ≠ b) :
    (a ∈ (if c then l.erase b else l)) ↔ a ∈ l := by
  split_ifs
  · exact List.mem_erase_of_ne hne
  · exact Iff.rfl

lemma mem_ite_erase_self_iff {α : Type} [DecidableEq α] {a : α} {l : List α}
    (c : Prop) [Decidable c] (hnd : l.Nodup) :
    (a ∈ (if c then l.erase a else l)) ↔ ¬c ∧ a ∈ l := by
  split_ifs with h
  · exact iff_of_false hnd.not_mem_erase (by tauto)
  · tauto

/-! ### Stage lemmas for the stack-based filter -/

lemma nodup_fullActions : fullActions.Nodup := by decide

lemma nodup_fa1 (st : RoundState) (ps : List Player) : (fa1 st ps).Nodup := by
  unfold fa1; exact nodup_ite_erase _ nodup_fullActions

lemma nodup_fa2 (st : RoundState) (ps : List Player) : (fa2 st ps).Nodup := by
  unfold fa2; exact nodup_ite_erase _ (nodup_fa1 st ps)

lemma nodup_fa3 (st : RoundState) (ps : List Player) : (fa3 st ps).Nodup := by
  unfold fa3; exact nodup_ite_erase _ (nodup_fa2 st ps)

lemma nodup_fa4 (st : RoundState) (ps : List Player) : (fa4 st ps).Nodup := by
  unfold fa4; exact nodup_ite_erase _ (nodup_fa3 st ps)

lemma nodup_fa5 (st : RoundState) (ps : List Player) : (fa5 st ps).Nodup := by
  unfold fa5; exact nodup_ite_erase _ (nodup_fa4 st ps)

lemma nodup_fa6 (st : RoundState) (ps : List Player) : (fa6 st ps).Nodup := by
  unfold fa6; exact nodup_ite_erase _ (nodup_fa5 st ps)

lemma mem_fa1_iff {st : RoundState} {ps : List Player} {a : Action}
    (hne : a ≠ .raise2Pot) : a ∈ fa1 st ps ↔ a ∈ fullActions := by
  unfold fa1; exact mem_ite_erase_iff_of_ne _ hne

lemma mem_fa2_iff {st : RoundState} {ps : List Player} {a : Action}
    (hne : a ≠ .raisePot) : a ∈ fa2 st ps ↔ a ∈ fa1 st ps := by
  unfold fa2; exact mem_ite_erase_iff_of_ne _ hne

lemma mem_fa3_iff {st : RoundState} {ps : List Player} {a : Action}
    (hne : a ≠ .raiseHalfPot) : a ∈ fa3 st ps ↔ a ∈ fa2 st ps := by
  unfold fa3; exact mem_ite_erase_iff_of_ne _ hne

lemma mem_fa4_iff {st : RoundState} {ps : List Player} {a : Action}
    (hne : a ≠ .raiseQuarterPot) : a ∈ fa4 st ps ↔ a ∈ fa3 st ps := by
  unfold fa4; exact mem_ite_erase_iff_of_ne _ hne

lemma mem_fa5_iff {st : RoundState} {ps : List Player} {a : Action}
    (hne : a ≠ .raiseHalfPot) : a ∈ fa5 st ps ↔ a ∈ fa4 st ps := by
  unfold fa5; exact mem_ite_erase_iff_of_ne _ hne

lemma mem_fa6_iff {st : RoundState} {ps : List Player} {a : Action}
    (hne : a ≠ .raiseQuarterPot) : a ∈ fa6 st ps ↔ a ∈ fa5 st ps := by
  unfold fa6; exact mem_ite_erase_iff_of_ne _ hne

lemma mem_fa6_of_nonraise {st : RoundState} {ps : List Player} {a : Action}
    (h1 : a ≠ .raise2Pot) (h2 : a ≠ .raisePot) (h3 : a ≠ .raiseHalfPot)
    (h4 : a ≠ .raiseQuarterPot) (hmem : a ∈ fullActions) : a ∈ fa6 st ps := by
  rw [mem_fa6_iff h4, mem_fa5_iff h3, mem_fa4_iff h4, mem_fa3_iff h3,
    mem_fa2_iff h2, mem_fa1_iff h1]
  exact hmem

lemma allIn_mem_fa6 (st : RoundState) (ps : List Player) :
    Action.allIn ∈ fa6 st ps :=
  mem_fa6_of_nonraise (by decide) (by decide) (by decide) (by decide)
    (by decide)

lemma raise2Pot_mem_fa6_iff (st : RoundState) (ps : List Player) :
    Action.raise2Pot ∈ fa6 st ps ↔
      ¬(((st.pot * 2 : Nat) : Int) > (currentPlayer st ps).remained_chips) := by
  rw [mem_fa6_iff (by decide), mem_fa5_iff (by decide), mem_fa4_iff (by decide),
    mem_fa3_iff (by decide), mem_fa2_iff (by decide)]
  unfold fa1
  rw [mem_ite_erase_self_iff _ nodup_fullActions]
  have h : Action.raise2Pot ∈ fullActions := by decide
  tauto

lemma raisePot_mem_fa6_iff (st : RoundState) (ps : List Player) :
    Action.raisePot ∈ fa6 st ps ↔
      ¬((st.pot : Int) > (currentPlayer st ps).remained_chips) := by
  rw [mem_fa6_iff (by decide), mem_fa5_iff (by decide), mem_fa4_iff (by decide),
    mem_fa3_iff (by decide)]
  unfold fa2
  rw [mem_ite_erase_self_iff _ (nodup_fa1 st ps), mem_fa1_iff (by decide)]
  have h : Action.raisePot ∈ fullActions := by decide
  tauto

lemma raiseHalfPot_mem_fa4_iff (st : RoundState) (ps : List Player) :
    Action.raiseHalfPot ∈ fa4 st ps ↔
      ¬(((st.pot / 2 : Nat) : Int) > (currentPlayer st ps).remained_chips) := by
  rw [mem_fa4_iff (by decide)]
  unfold fa3
  rw [mem_ite_erase_self_iff _ (nodup_fa2 st ps), mem_fa2_iff (by decide),
    mem_fa1_iff (by decide)]
  have h : Action.raiseHalfPot ∈ fullActions := by decide
  tauto

lemma raiseHalfPot_mem_fa6_iff (st : RoundState) (ps : List Player) :
    Action.raiseHalfPot ∈ fa6 st ps ↔
      ¬(((st.pot / 2 : Nat) : Int) > (currentPlayer st ps).remained_chips) ∧
      ¬(((st.pot / 2 : Nat) : Int) + st.raised.getD st.game_pointer 0 ≤
          listMax st.raised) := by
  rw [mem_fa6_iff (by decide)]
  unfold fa5
  rw [mem_ite_erase_self_iff _ (nodup_fa4 st ps)]
  have h := raiseHalfPot_mem_fa4_iff st ps
  tauto

lemma raiseQuarterPot_mem_fa5_iff (st : RoundState) (ps : List Player) :
    Action.raiseQuarterPot ∈ fa5 st ps ↔
      ¬(((st.pot / 4 : Nat) : Int) > (currentPlayer st ps).remained_chips) := by
  rw [mem_fa5_iff (by decide)]
  unfold fa4
  rw [mem_ite_erase_self_iff _ (nodup_fa3 st ps), mem_fa3_iff (by decide),
    mem_fa2_iff (by decide), mem_fa1_iff (by decide)]
  have h : Action.raiseQuarterPot ∈ fullActions := by decide
  tauto

lemma raiseQuarterPot_mem_fa6_iff (st : RoundState) (ps : List Player) :
    Action.raiseQuarterPot ∈ fa6 st ps ↔
      ¬(((st.pot / 4 : Nat) : Int) > (currentPlayer st ps).remained_chips) ∧
      ¬(((st.pot / 4 : Nat) : Int) + st.raised.getD st.game_pointer 0 ≤
          listMax st.raised) := by
  unfold fa6
  rw [mem_ite_erase_self_iff _ (nodup_fa5 st ps)]
  have h := raiseQuarterPot_mem_fa5_iff st ps
  tauto

/-- In the branch where the amount owed forces an all-in call, the filter
returns exactly fold, check and call. -/
lemma raiseFilter_cap (st : RoundState) (ps : List Player)
    (hCap : callDiff st > 0 ∧
      callDiff st ≥ (currentPlayer st ps).remained_chips) :
    raiseFilter st ps = [Action.fold, Action.check, Action.call] := by
  unfold raiseFilter
  rw [if_pos hCap]
  decide

lemma raiseFilter_else (st : RoundState) (ps : List Player)
    (hElse : ¬(callDiff st > 0 ∧
      callDiff st ≥ (currentPlayer st ps).remained_chips)) :
    raiseFilter st ps = fa6 st ps := by
  unfold raiseFilter
  rw [if_neg hElse]

lemma nodup_raiseFilter (st : RoundState) (ps : List Player) :
    (raiseFilter st ps).Nodup := by
  unfold raiseFilter
  split_ifs
  · decide
  · exact nodup_fa6 st ps

lemma mem_raiseFilter_of_nonraise (st : RoundState) (ps : List Player)
    {a : Action} (hf : a = .fold ∨ a = .check ∨ a = .call) :
    a ∈ raiseFilter st ps := by
  unfold raiseFilter
  split_ifs
  · rcases hf with rfl | rfl | rfl <;> decide
  · rcases hf with rfl | rfl | rfl <;>
      exact mem_fa6_of_nonraise (by decide) (by decide) (by decide) (by decide)
        (by decide)

/-! ### Street and history stage lemmas -/

lemma historyFilter_mem_of_ne {rc : Nat} {h l : List Action} {a : Action}
    (h1 : a ≠ .check) (h2 : a ≠ .call) :
    a ∈ historyFilter rc h l ↔ a ∈ l := by
  unfold historyFilter
  split_ifs <;>
    simp only [List.mem_erase_of_ne h1, List.mem_erase_of_ne h2]

lemma check_mem_historyFilter (rc : Nat) (h : List Action) {l : List Action}
    (hnd : l.Nodup) (hc : Action.check ∈ l) :
    (Action.check ∈ historyFilter rc h l) ↔
      ¬((rc = 0 ∧ h = []) ∨ (h ≠ [] ∧ ¬ lastInCheckCall h)) := by
  unfold historyFilter streetRule1 streetRule2 streetRule3 streetRule4
  split_ifs with h1 h2 h3 h4
  · exact iff_of_false hnd.not_mem_erase (by tauto)
  · exact iff_of_true ((List.mem_erase_of_ne (by decide)).2 hc) (by tauto)
  · exact iff_of_true ((List.mem_erase_of_ne (by decide)).2 hc) (by tauto)
  · exact iff_of_false hnd.not_mem_erase (by tauto)
  · exact iff_of_true hc (by tauto)

lemma call_mem_historyFilter (rc : Nat) (h : List Action) {l : List Action}
    (hnd : l.Nodup) (hc : Action.call ∈ l) :
    (Action.call ∈ historyFilter rc h l) ↔
      ¬((rc ≠ 0 ∧ h = []) ∨ (h ≠ [] ∧ lastInCheckCall h)) := by
  unfold historyFilter streetRule1 streetRule2 streetRule3 streetRule4
  split_ifs with h1 h2 h3 h4
  · exact iff_of_true ((List.mem_erase_of_ne (by decide)).2 hc) (by tauto)
  · exact iff_of_false hnd.not_mem_erase (by tauto)
  · exact iff_of_false hnd.not_mem_erase (by tauto)
  · exact iff_of_true ((List.mem_erase_of_ne (by decide)).2 hc) (by tauto)
  · exact iff_of_true hc (by tauto)

/-- One of the four street and history branches always fires: the trailing
`else` of the chain is unreachable. -/
lemma streetRules_cover (rc : Nat) (h : List Action) :
    streetRule1 rc h ∨ streetRule2 rc h ∨ streetRule3 h ∨ streetRule4 h := by
  unfold streetRule1 streetRule2 streetRule3 streetRule4
  by_cases hrc : rc = 0 <;> by_cases he : h = [] <;>
    by_cases ht : lastInCheckCall h <;> tauto

/-! ### Skip loop lemmas -/

lemma skipFolded_some (ps : List Player) (n : Nat) :
    ∀ (fuel start : Nat), start < n →
      (∃ d, d < fuel ∧ (ps.getD ((start + d) % n) default).status ≠
        PlayerStatus.folded) →
      ∃ ptr, skipFolded ps n start fuel = some ptr := by
  intro fuel
  induction fuel with
  | zero =>
    rintro start _ ⟨d, hd, _⟩
    omega
  | succ fuel ih =>
    rintro start hstart ⟨d, hd, hnf⟩
    by_cases hf : (ps.getD start default).status = PlayerStatus.folded
    · have hd0 : d ≠ 0 := by
        rintro rfl
        rw [Nat.add_zero, Nat.mod_eq_of_lt hstart] at hnf
        exact hnf hf
      obtain ⟨d', rfl⟩ : ∃ d', d = d' + 1 := ⟨d - 1, by omega⟩
      have hn : 0 < n := by omega
      obtain ⟨ptr, hptr⟩ := ih ((start + 1) % n) (Nat.mod_lt _ hn)
        ⟨d', by omega, by
          rw [Nat.mod_add_mod, show start + 1 + d' = start + (d' + 1) by omega]
          exact hnf⟩
      refine ⟨ptr, ?_⟩
      simp only [skipFolded]
      rw [if_pos hf]
      exact hptr
    · refine ⟨start, ?_⟩
      simp only [skipFolded]
      rw [if_neg hf]

lemma skipFolded_spec (ps : List Player) (n : Nat) :
    ∀ (fuel start ptr : Nat), start < n →
      skipFolded ps n start fuel = some ptr →
      ptr < n ∧ (ps.getD ptr default).status ≠ PlayerStatus.folded ∧
        ∃ d, ptr = (start + d) % n ∧
          ∀ e, e < d →
            (ps.getD ((start + e) % n) default).status =
              PlayerStatus.folded := by
  intro fuel
  induction fuel with
  | zero =>
    intro start ptr _ hskip
    simp [skipFolded] at hskip
  | succ fuel ih =>
    intro start ptr hstart hskip
    simp only [skipFolded] at hskip
    by_cases hf : (ps.getD start default).status = PlayerStatus.folded
    · rw [if_pos hf] at hskip
      have hn : 0 < n := by omega
      obtain ⟨h1, h2, d, hd, hall⟩ := ih ((start + 1) % n) ptr
        (Nat.mod_lt _ hn) hskip
      refine ⟨h1, h2, d + 1, ?_, ?_⟩
      · rw [hd, Nat.mod_add_mod, show start + 1 + d = start + (d + 1) by omega]
      · intro e he
        cases e with
        | zero => rw [Nat.add_zero, Nat.mod_eq_of_lt hstart]; exact hf
        | succ e' =>
          have := hall e' (by omega)
          rw [Nat.mod_add_mod,
            show start + 1 + e' = start + (e' + 1) by omega] at this
          exact this
    · rw [if_neg hf] at hskip
      cases hskip
      exact ⟨hstart, hf, 0, by rw [Nat.add_zero, Nat.mod_eq_of_lt hstart],
        fun e he => absurd he (Nat.not_lt_zero e)⟩

/-- The distance witness: from any start below `n` there is a step count
below `n` that lands on any given seat `i` below `n`. -/
lemma exists_step_to (n start i : Nat) (hstart : start < n) (hi : i < n) :
    ∃ d, d < n ∧ (start + d) % n = i := by
  have hn : 0 < n := by omega
  refine ⟨(i + n - start) % n, Nat.mod_lt _ hn, ?_⟩
  have h1 : (start + (i + n - start) % n) % n = (start + (i + n - start)) % n :=
    Nat.add_mod_mod start (i + n - start) n
  rw [h1, Nat.add_sub_cancel' (by omega : start ≤ i + n), Nat.add_mod_right,
    Nat.mod_eq_of_lt hi]

/-! ### Structural lemmas about `promoteAllin` and `advanceState` -/

lemma promoteAllin_chips (p : Player) :
    (promoteAllin p).remained_chips = p.remained_chips := by
  unfold promoteAllin
  split_ifs <;> rfl

lemma promoteAllin_status (p : Player) :
    (promoteAllin p).status =
      if p.remained_chips = 0 ∧ p.status ≠ PlayerStatus.folded then
        PlayerStatus.allin
      else p.status := by
  unfold promoteAllin
  split_ifs <;> rfl

lemma promoteAllin_not_folded (p : Player)
    (h : p.status ≠ PlayerStatus.folded) :
    (promoteAllin p).status ≠ PlayerStatus.folded := by
  rw [promoteAllin_status]
  split_ifs <;> simp_all

lemma advanceState_game_pointer (st1 : RoundState) (gp : Nat) (p2 : Player) :
    (advanceState st1 gp p2).game_pointer = (gp + 1) % st1.num_players := by
  unfold advanceState
  split_ifs <;> rfl

lemma advanceState_num_players (st1 : RoundState) (gp : Nat) (p2 : Player) :
    (advanceState st1 gp p2).num_players = st1.num_players := by
  unfold advanceState
  split_ifs <;> rfl

lemma advanceState_raised (st1 : RoundState) (gp : Nat) (p2 : Player) :
    (advanceState st1 gp p2).raised = st1.raised := by
  unfold advanceState
  split_ifs <;> rfl

lemma advanceState_pot (st1 : RoundState) (gp : Nat) (p2 : Player) :
    (advanceState st1 gp p2).pot = st1.pot := by
  unfold advanceState
  split_ifs <;> rfl

lemma advanceState_not_raise (st1 : RoundState) (gp : Nat) (p2 : Player) :
    (advanceState st1 gp p2).not_raise_num =
      if p2.status = PlayerStatus.allin then st1.not_raise_num - 1
      else st1.not_raise_num := by
  unfold advanceState
  split_ifs <;> simp_all

lemma advanceState_not_playing (st1 : RoundState) (gp : Nat) (p2 : Player) :
    (advanceState st1 gp p2).not_playing_num =
      if p2.status = PlayerStatus.alive then st1.not_playing_num
      else st1.not_playing_num + 1 := by
  unfold advanceState
  cases hs : p2.status <;> simp_all

/-- The pointer advance and its corrections preserve the consensus sum
whenever the acting player has not folded: the all-in case trades one unit
of `not_raise_num` for one unit of `not_playing_num`. -/
lemma advanceState_sum (st1 : RoundState) (gp : Nat) (p2 : Player)
    (h : p2.status ≠ PlayerStatus.folded) :
    (advanceState st1 gp p2).not_raise_num +
        (advanceState st1 gp p2).not_playing_num =
      st1.not_raise_num + st1.not_playing_num := by
  rw [advanceState_not_raise, advanceState_not_playing]
  cases hs : p2.status <;> simp_all

/-! ### Structural lemmas about `moveStep` and `proceed_round` -/

lemma moveStep_chips (st : RoundState) (ps : List Player) (a : Action) :
    (moveStep st ps a).2.remained_chips =
      (currentPlayer st ps).remained_chips - actionQuantity st ps a := by
  cases a <;> simp [moveStep, actionQuantity, Player.bet]

lemma moveStep_status (st : RoundState) (ps : List Player) (a : Action) :
    (moveStep st ps a).2.status =
      if a = Action.fold then PlayerStatus.folded
      else (currentPlayer st ps).status := by
  cases a <;> simp [moveStep, Player.bet]

lemma moveStep_not_raise (st : RoundState) (ps : List Player) (a : Action) :
    (moveStep st ps a).1.not_raise_num = rawNotRaise st a := by
  cases a <;> simp [moveStep, rawNotRaise]

lemma moveStep_game_pointer (st : RoundState) (ps : List Player) (a : Action) :
    (moveStep st ps a).1.game_pointer = st.game_pointer := by
  cases a <;> simp [moveStep]

lemma moveStep_num_players (st : RoundState) (ps : List Player) (a : Action) :
    (moveStep st ps a).1.num_players = st.num_players := by
  cases a <;> simp [moveStep]

lemma moveStep_not_playing (st : RoundState) (ps : List Player) (a : Action) :
    (moveStep st ps a).1.not_playing_num = st.not_playing_num := by
  cases a <;> simp [moveStep]

lemma moveStep_pot (st : RoundState) (ps : List Player) (a : Action) :
    (moveStep st ps a).1.pot = st.pot := by
  cases a <;> simp [moveStep]

lemma moveStep_raised_check (st : RoundState) (ps : List Player) :
    (moveStep st ps .check).1.raised = st.raised := rfl

lemma moveStep_raised_call (st : RoundState) (ps : List Player) :
    (moveStep st ps .call).1.raised =
      st.raised.set st.game_pointer (listMax st.raised) := rfl

lemma proceed_round_neg (st : RoundState) (ps : List Player) (a : Action)
    (h : (moveStep st ps a).2.remained_chips < 0) :
    proceed_round st ps a =
      .negativeStake (moveStep st ps a).1
        (ps.set st.game_pointer (moveStep st ps a).2) := by
  unfold proceed_round
  rw [if_pos h]

/-- On the non-exception path the result is never `negativeStake`, its state
agrees with `postState` except possibly at the pointer, and its players list
is `postPlayers`. -/
lemma proceed_round_fields (st : RoundState) (ps : List Player) (a : Action)
    (h : ¬((moveStep st ps a).2.remained_chips < 0)) :
    (proceed_round st ps a).state.not_raise_num =
        (postState st ps a).not_raise_num ∧
      (proceed_round st ps a).state.not_playing_num =
        (postState st ps a).not_playing_num ∧
      (proceed_round st ps a).state.raised = (postState st ps a).raised ∧
      (proceed_round st ps a).state.num_players =
        (postState st ps a).num_players ∧
      (proceed_round st ps a).playersOut = postPlayers st ps a ∧
      (proceed_round st ps a).isNegativeStake = false := by
  unfold proceed_round
  rw [if_neg h]
  cases hsk : skipFolded (postPlayers st ps a)
      (postState st ps a).num_players (postState st ps a).game_pointer
      (postState st ps a).num_players <;>
    simp [ProceedResult.state, ProceedResult.playersOut,
      ProceedResult.isNegativeStake]

lemma proceed_round_ok_elim (st : RoundState) (ps : List Player) (a : Action)
    (st2 : RoundState) (ps2 : List Player)
    (hok : proceed_round st ps a = .ok st2 ps2) :
    ps2 = postPlayers st ps a ∧
      skipFolded (postPlayers st ps a) (postState st ps a).num_players
        (postState st ps a).game_pointer (postState st ps a).num_players =
        some st2.game_pointer := by
  unfold proceed_round at hok
  by_cases h : (moveStep st ps a).2.remained_chips < 0
  · rw [if_pos h] at hok
    cases hok
  · rw [if_neg h] at hok
    cases hsk : skipFolded (postPlayers st ps a)
        (postState st ps a).num_players (postState st ps a).game_pointer
        (postState st ps a).num_players with
    | none => rw [hsk] at hok; cases hok
    | some ptr =>
      rw [hsk] at hok
      cases hok
      refine ⟨rfl, ?_⟩
      simpa using hsk

lemma proceed_round_no_diverge (st : RoundState) (ps : List Player)
    (a : Action)
    (h : ¬((moveStep st ps a).2.remained_chips < 0) →
      ∃ ptr, skipFolded (postPlayers st ps a) (postState st ps a).num_players
        (postState st ps a).game_pointer (postState st ps a).num_players =
        some ptr) :
    (proceed_round st ps a).isDiverge = false := by
  unfold proceed_round
  by_cases hlt : (moveStep st ps a).2.remained_chips < 0
  · rw [if_pos hlt]
    rfl
  · rw [if_neg hlt]
    obtain ⟨ptr, hptr⟩ := h hlt
    rw [hptr]
    rfl

/-- One CHECK by a non-folded acting player with a non-negative stack
succeeds, keeps the shape invariants, and moves the consensus sum up by
exactly one. -/
lemma check_step (st : RoundState) (ps : List Player)
    (hn : st.num_players = ps.length)
    (hgp : st.game_pointer < ps.length)
    (hnf : (currentPlayer st ps).status ≠ PlayerStatus.folded)
    (hch : ∀ p ∈ ps, 0 ≤ p.remained_chips) :
    ∃ st2 ps2, proceed_round st ps .check = .ok st2 ps2 ∧
      st2.num_players = st.num_players ∧ ps2.length = ps.length ∧
      st2.game_pointer < ps2.length ∧
      (currentPlayer st2 ps2).status ≠ PlayerStatus.folded ∧
      (∀ p ∈ ps2, 0 ≤ p.remained_chips) ∧
      st2.not_raise_num + st2.not_playing_num =
        st.not_raise_num + st.not_playing_num + 1 := by
  have h0 : 0 ≤ (currentPlayer st ps).remained_chips :=
    hch _ (getD_mem ps st.game_pointer default hgp)
  have hq : actionQuantity st ps .check = 0 := rfl
  have hchips : (moveStep st ps .check).2.remained_chips =
      (currentPlayer st ps).remained_chips := by
    rw [moveStep_chips, hq]
    ring
  have hlt : ¬((moveStep st ps .check).2.remained_chips < 0) := by
    rw [hchips]
    omega
  have hst : (moveStep st ps .check).2.status = (currentPlayer st ps).status := by
    rw [moveStep_status]
    simp
  set p2 := promoteAllin (moveStep st ps .check).2 with hp2
  have hp2nf : p2.status ≠ PlayerStatus.folded := by
    apply promoteAllin_not_folded
    rw [hst]
    exact hnf
  have hp2chips : p2.remained_chips = (currentPlayer st ps).remained_chips := by
    rw [hp2, promoteAllin_chips, hchips]
  have hnpos : 0 < ps.length := by omega
  have hpostn : (postState st ps .check).num_players = st.num_players := by
    unfold postState
    rw [advanceState_num_players, moveStep_num_players]
  have hpostgp : (postState st ps .check).game_pointer =
      (st.game_pointer + 1) % st.num_players := by
    unfold postState
    rw [advanceState_game_pointer, moveStep_num_players]
  have hstart : (st.game_pointer + 1) % st.num_players < st.num_players := by
    apply Nat.mod_lt
    omega
  have hlen2 : (postPlayers st ps .check).length = ps.length := by
    unfold postPlayers
    simp
  have hseat : (postPlayers st ps .check).getD st.game_pointer default = p2 := by
    unfold postPlayers
    exact getD_set_self ps st.game_pointer _ default hgp
  obtain ⟨d, hdlt, hd⟩ := exists_step_to st.num_players
    ((st.game_pointer + 1) % st.num_players) st.game_pointer hstart (by omega)
  have hnfseat : ((postPlayers st ps .check).getD
      (((st.game_pointer + 1) % st.num_players + d) % st.num_players)
      default).status ≠ PlayerStatus.folded := by
    rw [hd, hseat]
    exact hp2nf
  obtain ⟨ptr, hskip⟩ := skipFolded_some (postPlayers st ps .check)
    st.num_players st.num_players ((st.game_pointer + 1) % st.num_players)
    hstart ⟨d, hdlt, hnfseat⟩
  have hskip2 : skipFolded (postPlayers st ps .check)
      (postState st ps .check).num_players
      (postState st ps .check).game_pointer
      (postState st ps .check).num_players = some ptr := by
    rw [hpostn, hpostgp]
    exact hskip
  have heq : proceed_round st ps .check =
      .ok { postState st ps .check with game_pointer := ptr }
        (postPlayers st ps .check) := by
    unfold proceed_round
    rw [if_neg hlt, hskip2]
  obtain ⟨hptrlt, hptrnf, -⟩ := skipFolded_spec (postPlayers st ps .check)
    st.num_players st.num_players ((st.game_pointer + 1) % st.num_players)
    ptr hstart hskip
  refine ⟨_, _, heq, hpostn, hlen2, ?_, ?_, ?_, ?_⟩
  · simp only [hlen2]
    omega
  · exact hptrnf
  · intro p hp
    rcases mem_set_cases ps st.game_pointer p2 p hp with rfl | hp
    · rw [hp2chips]
      exact h0
    · exact hch p hp
  · have hsum := advanceState_sum (moveStep st ps .check).1 st.game_pointer p2
      hp2nf
    have h1 : (moveStep st ps .check).1.not_raise_num =
        st.not_raise_num + 1 := moveStep_not_raise st ps .check
    have h2 : (moveStep st ps .check).1.not_playing_num = st.not_playing_num :=
      moveStep_not_playing st ps .check
    rw [hp2] at hsum
    unfold postState
    simp only []
    omega

/-- Invariant iteration for repeated checks: `j` checks all succeed and move
the consensus sum up by exactly `j`. -/
lemma iterChecks_spec :
    ∀ (j : Nat) (st : RoundState) (ps : List Player),
      st.num_players = ps.length →
      st.game_pointer < ps.length →
      (currentPlayer st ps).status ≠ PlayerStatus.folded →
      (∀ p ∈ ps, 0 ≤ p.remained_chips) →
      ∃ st2 ps2, iterChecks j st ps = some (st2, ps2) ∧
        st2.num_players = st.num_players ∧
        st2.not_raise_num + st2.not_playing_num =
          st.not_raise_num + st.not_playing_num + j := by
  intro j
  induction j with
  | zero =>
    intro st ps _ _ _ _
    exact ⟨st, ps, rfl, rfl, by omega⟩
  | succ j ih =>
    intro st ps hn hgp hnf hch
    obtain ⟨st1, ps1, hok, hnum, hlen, hgp1, hnf1, hch1, hsum⟩ :=
      check_step st ps hn hgp hnf hch
    obtain ⟨st2, ps2, hiter, hnum2, hsum2⟩ := ih st1 ps1
      (by omega) hgp1 hnf1 hch1
    refine ⟨st2, ps2, ?_, by omega, ?_⟩
    · simp only [iterChecks, hok]
      exact hiter
    · rw [hsum2, hsum]
      push_cast
      ring

lemma is_over_iff (st : RoundState) :
    is_over st = true ↔
      (st.num_players : Int) ≤ st.not_raise_num + st.not_playing_num := by
  simp [is_over, ge_iff_le]

/-! ### Claim theorems -/

/-- Claim C8: start_new_round resets the consensus counter to 0, installs a
non-empty seed as given and an absent seed as all zeros of length
num_players, records the supplied pointer, and leaves the inactive counter
unchanged; with no actions applied afterwards the raised list is exactly the
installed value. -/
theorem c8_start_round_frame (st : RoundState) (gp : Nat) (l : List Int)
    (hl : l ≠ []) :
    (start_new_round st gp (some l)).raised = l ∧
    (start_new_round st gp none).raised = List.replicate st.num_players 0 ∧
    (∀ o : Option (List Int),
      (start_new_round st gp o).not_raise_num = 0 ∧
      (start_new_round st gp o).game_pointer = gp ∧
      (start_new_round st gp o).not_playing_num = st.not_playing_num) := by
  refine ⟨?_, rfl, fun o => ⟨rfl, rfl, rfl⟩⟩
  simp [start_new_round, List.isEmpty_iff, hl]

/-- Witness for C8 at a concrete state and seed. -/
theorem c8_start_round_frame_witness :
    (start_new_round ⟨0, 2, 0, 5, 7, [1, 2]⟩ 1 (some [3, 4])).raised =
        [3, 4] ∧
      (start_new_round ⟨0, 2, 0, 5, 7, [1, 2]⟩ 1 none).raised = [0, 0] ∧
      (start_new_round ⟨0, 2, 0, 5, 7, [1, 2]⟩ 1
        (some [3, 4])).not_playing_num = 7 :=
  have h := c8_start_round_frame ⟨0, 2, 0, 5, 7, [1, 2]⟩ 1 [3, 4] (by decide)
  ⟨h.1, by rw [h.2.1]; decide, (h.2.2 (some [3, 4])).2.2⟩

/-- Claim C9: an empty seed list behaves exactly like no seed (the Python
truthiness test), while any non-empty seed, zeros included, is installed as
given. -/
theorem c9_empty_seed_like_none (st : RoundState) (gp : Nat) :
    start_new_round st gp (some []) = start_new_round st gp none ∧
    ∀ l : List Int, l ≠ [] → (start_new_round st gp (some l)).raised = l := by
  refine ⟨rfl, fun l hl => ?_⟩
  simp [start_new_round, List.isEmpty_iff, hl]

/-- Witness for C9 at a concrete state, with the all-zero singleton seed. -/
theorem c9_empty_seed_like_none_witness :
    start_new_round ⟨0, 3, 0, 4, 2, [9]⟩ 2 (some []) =
        start_new_round ⟨0, 3, 0, 4, 2, [9]⟩ 2 none ∧
      (start_new_round ⟨0, 3, 0, 4, 2, [9]⟩ 2 (some [0])).raised = [0] :=
  have h := c9_empty_seed_like_none ⟨0, 3, 0, 4, 2, [9]⟩ 2
  ⟨h.1, h.2 [0] (by decide)⟩

/-- Claim C10: no filtering branch of get_nolimit_legal_actions ever removes
Fold, so folding is legal at every decision point. -/
theorem c10_fold_always_legal (st : RoundState) (ps : List Player)
    (h : List Action) (rc : Nat) :
    Action.fold ∈ get_nolimit_legal_actions st ps h rc := by
  unfold get_nolimit_legal_actions
  rw [historyFilter_mem_of_ne (by decide) (by decide)]
  exact mem_raiseFilter_of_nonraise st ps (Or.inl rfl)

/-- Claim C5: proceed_round raises the negative-stake error exactly when the
acting player holds strictly negative chips after the chip movement of the
dispatch; at that point the pointer has not been advanced, the consensus
counters carry the raw per-action values with no post-movement correction,
and no player has been newly promoted to all-in. -/
theorem c5_negative_stake_characterisation (st : RoundState)
    (ps : List Player) (a : Action) :
    ((proceed_round st ps a).isNegativeStake = true ↔
      (moveStep st ps a).2.remained_chips < 0) ∧
    (∀ st2 ps2, proceed_round st ps a = .negativeStake st2 ps2 →
      st2.game_pointer = st.game_pointer ∧
      st2.not_playing_num = st.not_playing_num ∧
      st2.not_raise_num = rawNotRaise st a ∧
      ((ps2.getD st.game_pointer default).status = PlayerStatus.allin →
        (currentPlayer st ps).status = PlayerStatus.allin)) := by
  constructor
  · by_cases hlt : (moveStep st ps a).2.remained_chips < 0
    · rw [proceed_round_neg st ps a hlt]
      exact iff_of_true rfl hlt
    · rw [(proceed_round_fields st ps a hlt).2.2.2.2.2]
      simpa using hlt
  · intro st2 ps2 hneg
    by_cases hlt : (moveStep st ps a).2.remained_chips < 0
    · rw [proceed_round_neg st ps a hlt] at hneg
      cases hneg
      refine ⟨moveStep_game_pointer st ps a, moveStep_not_playing st ps a,
        moveStep_not_raise st ps a, ?_⟩
      by_cases hb : st.game_pointer < ps.length
      · rw [getD_set_self ps st.game_pointer _ default hb, moveStep_status]
        split_ifs with hf
        · intro hcontra
          cases hcontra
        · exact id
      · rw [List.getD_eq_default]
        · intro hcontra
          cases hcontra
        · simpa using by omega
    · have := (proceed_round_fields st ps a hlt).2.2.2.2.2
      rw [hneg] at this
      cases this

/-- Witness for C5: a call owing 100 from a 50-chip stack fires the
negative-stake branch. -/
theorem c5_negative_stake_witness :
    (proceed_round ⟨0, 2, 100, 0, 0, [0, 100]⟩
      [⟨50, PlayerStatus.alive⟩, ⟨0, PlayerStatus.allin⟩]
      .call).isNegativeStake = true :=
  (c5_negative_stake_characterisation ⟨0, 2, 100, 0, 0, [0, 100]⟩
    [⟨50, PlayerStatus.alive⟩, ⟨0, PlayerStatus.allin⟩] .call).1.mpr
    (by decide)

/-- Claim C6 counterexample: at raised = [0, 100] a call by player 0 with
100 chips goes all-in, and the all-in correction cancels the increment, so
not_raise_num stays at 0 instead of rising to 1 as the claim states. -/
theorem c6_call_counterexample :
    ¬((proceed_round ⟨0, 2, 0, 0, 0, [0, 100]⟩
        [⟨100, PlayerStatus.alive⟩, ⟨100, PlayerStatus.alive⟩]
        .call).state.not_raise_num =
      (⟨0, 2, 0, 0, 0, [0, 100]⟩ : RoundState).not_raise_num + 1) := by
  decide

/-- Claim C6 (amended): after a call the acting seat of raised equals the
previous maximum, the chips decrease by exactly the call difference, and
not_raise_num rises by 1 unless the call leaves the player at exactly zero
chips without having folded, or the player was already all-in; in those
cases the all-in correction cancels the increment and the counter is
unchanged. -/
theorem c6_call_effects (st : RoundState) (ps : List Player)
    (hgp : st.game_pointer < ps.length)
    (hr : st.game_pointer < st.raised.length) :
    (proceed_round st ps .call).state.raised =
      st.raised.set st.game_pointer (listMax st.raised) ∧
    (proceed_round st ps .call).state.raised.getD st.game_pointer 0 =
      listMax st.raised ∧
    ((proceed_round st ps .call).playersOut.getD st.game_pointer
        default).remained_chips =
      (currentPlayer st ps).remained_chips - callDiff st ∧
    (proceed_round st ps .call).state.not_raise_num =
      (if (currentPlayer st ps).remained_chips - callDiff st < 0 then
        st.not_raise_num + 1
      else if ((currentPlayer st ps).remained_chips - callDiff st = 0 ∧
            (currentPlayer st ps).status ≠ PlayerStatus.folded) ∨
          (currentPlayer st ps).status = PlayerStatus.allin then
        st.not_raise_num
      else st.not_raise_num + 1) := by
  have hchips : (moveStep st ps .call).2.remained_chips =
      (currentPlayer st ps).remained_chips - callDiff st := by
    rw [moveStep_chips]
    rfl
  have hms_status : (moveStep st ps .call).2.status =
      (currentPlayer st ps).status := by
    rw [moveStep_status]
    simp
  by_cases hlt : (moveStep st ps .call).2.remained_chips < 0
  · rw [proceed_round_neg st ps .call hlt]
    have hlt2 : (currentPlayer st ps).remained_chips - callDiff st < 0 := by
      rw [← hchips]
      exact hlt
    refine ⟨moveStep_raised_call st ps, ?_, ?_, ?_⟩
    · show (moveStep st ps Action.call).1.raised.getD st.game_pointer 0 =
        listMax st.raised
      rw [moveStep_raised_call st ps]
      exact getD_set_self st.raised st.game_pointer _ 0 hr
    · show ((ps.set st.game_pointer
          (moveStep st ps Action.call).2).getD st.game_pointer
            default).remained_chips = _
      rw [getD_set_self ps st.game_pointer _ default hgp, hchips]
    · show (moveStep st ps Action.call).1.not_raise_num = _
      rw [moveStep_not_raise, if_pos hlt2]
      rfl
  · have hfields := proceed_round_fields st ps .call hlt
    have hlt2 : ¬((currentPlayer st ps).remained_chips - callDiff st < 0) := by
      rw [← hchips]
      exact hlt
    have hp2chips : (promoteAllin (moveStep st ps .call).2).remained_chips =
        (currentPlayer st ps).remained_chips - callDiff st := by
      rw [promoteAllin_chips, hchips]
    have hp2status : (promoteAllin (moveStep st ps .call).2).status =
          PlayerStatus.allin ↔
        (((currentPlayer st ps).remained_chips - callDiff st = 0 ∧
            (currentPlayer st ps).status ≠ PlayerStatus.folded) ∨
          (currentPlayer st ps).status = PlayerStatus.allin) := by
      rw [promoteAllin_status, hchips, hms_status]
      split_ifs with hcond
      · simp [hcond]
      · constructor
        · intro hs
          exact Or.inr hs
        · rintro (hc | hs)
          · exact absurd hc hcond
          · exact hs
    refine ⟨?_, ?_, ?_, ?_⟩
    · rw [hfields.2.2.1]
      unfold postState
      rw [advanceState_raised, moveStep_raised_call]
    · rw [hfields.2.2.1]
      unfold postState
      rw [advanceState_raised, moveStep_raised_call]
      exact getD_set_self st.raised st.game_pointer _ 0 hr
    · rw [hfields.2.2.2.2.1]
      unfold postPlayers
      rw [getD_set_self ps st.game_pointer _ default hgp, hp2chips]
    · rw [hfields.1]
      unfold postState
      rw [advanceState_not_raise, moveStep_not_raise, if_neg hlt2]
      simp only [hp2status]
      split_ifs with hc
      · show st.not_raise_num + 1 - 1 = st.not_raise_num
        ring
      · rfl

/-- Witness for C6 at a concrete state where the call does not exhaust the
stack: the counter rises by exactly one. -/
theorem c6_call_effects_witness :
    (proceed_round ⟨0, 2, 0, 3, 0, [0, 40]⟩
        [⟨100, PlayerStatus.alive⟩, ⟨100, PlayerStatus.alive⟩]
        .call).state.not_raise_num = 3 + 1 := by
  have h := c6_call_effects ⟨0, 2, 0, 3, 0, [0, 40]⟩
    [⟨100, PlayerStatus.alive⟩, ⟨100, PlayerStatus.alive⟩] (by decide)
    (by decide)
  rw [h.2.2.2]
  decide

/-- Claim C2 counterexample: with pot 0 and no prior raise, the code keeps
RaisePot and RaiseTwoPot legal (the must-actually-raise check is applied
only to the half-pot and quarter-pot variants), contradicting the claim
that only AllIn remains among the raise variants. -/
theorem c2_pot_zero_counterexample :
    Action.raisePot ∈ get_nolimit_legal_actions ⟨0, 2, 0, 0, 0, [0, 0]⟩
        [⟨100, PlayerStatus.alive⟩, ⟨100, PlayerStatus.alive⟩] [] 0 ∧
    Action.raise2Pot ∈ get_nolimit_legal_actions ⟨0, 2, 0, 0, 0, [0, 0]⟩
        [⟨100, PlayerStatus.alive⟩, ⟨100, PlayerStatus.alive⟩] [] 0 := by
  decide

/-- Claim C2 (amended): when the amount owed does not force an all-in call,
AllIn is always kept; RaiseTwoPot and RaisePot are kept exactly when their
chip requirement fits the stack (they receive no must-actually-raise check);
RaiseHalfPot and RaiseQuarterPot are kept exactly when their requirement
fits the stack and the resulting total strictly exceeds the current maximum
raised amount. -/
theorem c2_raise_filter_characterisation (st : RoundState) (ps : List Player)
    (h : List Action) (rc : Nat)
    (hElse : ¬(callDiff st > 0 ∧
      callDiff st ≥ (currentPlayer st ps).remained_chips)) :
    Action.allIn ∈ get_nolimit_legal_actions st ps h rc ∧
    (Action.raise2Pot ∈ get_nolimit_legal_actions st ps h rc ↔
      ((st.pot * 2 : Nat) : Int) ≤ (currentPlayer st ps).remained_chips) ∧
    (Action.raisePot ∈ get_nolimit_legal_actions st ps h rc ↔
      (st.pot : Int) ≤ (currentPlayer st ps).remained_chips) ∧
    (Action.raiseHalfPot ∈ get_nolimit_legal_actions st ps h rc ↔
      (((st.pot / 2 : Nat) : Int) ≤ (currentPlayer st ps).remained_chips ∧
        listMax st.raised <
          ((st.pot / 2 : Nat) : Int) + st.raised.getD st.game_pointer 0)) ∧
    (Action.raiseQuarterPot ∈ get_nolimit_legal_actions st ps h rc ↔
      (((st.pot / 4 : Nat) : Int) ≤ (currentPlayer st ps).remained_chips ∧
        listMax st.raised <
          ((st.pot / 4 : Nat) : Int) + st.raised.getD st.game_pointer 0)) := by
  unfold get_nolimit_legal_actions
  refine ⟨?_, ?_, ?_, ?_, ?_⟩
  · rw [historyFilter_mem_of_ne (by decide) (by decide),
      raiseFilter_else st ps hElse]
    exact allIn_mem_fa6 st ps
  · rw [historyFilter_mem_of_ne (by decide) (by decide),
      raiseFilter_else st ps hElse, raise2Pot_mem_fa6_iff]
    exact not_lt
  · rw [historyFilter_mem_of_ne (by decide) (by decide),
      raiseFilter_else st ps hElse, raisePot_mem_fa6_iff]
    exact not_lt
  · rw [historyFilter_mem_of_ne (by decide) (by decide),
      raiseFilter_else st ps hElse, raiseHalfPot_mem_fa6_iff]
    simp only [not_lt, not_le]
  · rw [historyFilter_mem_of_ne (by decide) (by decide),
      raiseFilter_else st ps hElse, raiseQuarterPot_mem_fa6_iff]
    simp only [not_lt, not_le]

/-- Witness for C2: pot 40 and a 5-chip stack on a later street keeps AllIn
and drops every pot-fraction raise. -/
theorem c2_raise_filter_witness :
    Action.allIn ∈ get_nolimit_legal_actions ⟨0, 2, 40, 0, 0, [0, 0]⟩
        [⟨5, PlayerStatus.alive⟩, ⟨100, PlayerStatus.alive⟩] [] 1 ∧
      ¬(Action.raisePot ∈ get_nolimit_legal_actions ⟨0, 2, 40, 0, 0, [0, 0]⟩
        [⟨5, PlayerStatus.alive⟩, ⟨100, PlayerStatus.alive⟩] [] 1) :=
  have h := c2_raise_filter_characterisation ⟨0, 2, 40, 0, 0, [0, 0]⟩
    [⟨5, PlayerStatus.alive⟩, ⟨100, PlayerStatus.alive⟩] [] 1 (by decide)
  ⟨h.1, fun hmem => by
    have := h.2.2.1.mp hmem
    revert this
    decide⟩

/-- Claim C7 counterexample: on street 0 with history ending in an all-in,
the guards of the first and the fourth street rule hold simultaneously, so
the four rules are not mutually exclusive as predicates; only the elif
evaluation order makes a single branch fire. -/
theorem c7_rules_overlap_counterexample :
    streetRule1 0 [Action.allIn] ∧ streetRule4 [Action.allIn] := by
  constructor
  · refine ⟨rfl, Or.inr ?_⟩
    decide
  · refine ⟨by decide, ?_⟩
    decide

set_option maxHeartbeats 1000000 in
/-- Claim C7 (amended): one of the four street rules always fires (the
trailing else is dead); the guards of rules 1 and 4 can hold together but
both remove Check, and the outcome is: Check is removed exactly when the
street is 0 with empty history or the history is non-empty and does not end
in a check or call, Call is removed exactly when the street is non-zero with
empty history or the history is non-empty and ends in a check or call, and
exactly one of Check and Call is removed at every decision point. -/
theorem c7_street_history_rules (st : RoundState) (ps : List Player)
    (h : List Action) (rc : Nat) :
    (streetRule1 rc h ∨ streetRule2 rc h ∨ streetRule3 h ∨ streetRule4 h) ∧
    (Action.check ∈ get_nolimit_legal_actions st ps h rc ↔
      ¬((rc = 0 ∧ h = []) ∨ (h ≠ [] ∧ ¬ lastInCheckCall h))) ∧
    (Action.call ∈ get_nolimit_legal_actions st ps h rc ↔
      ¬((rc ≠ 0 ∧ h = []) ∨ (h ≠ [] ∧ lastInCheckCall h))) ∧
    (Action.check ∈ get_nolimit_legal_actions st ps h rc ↔
      Action.call ∉ get_nolimit_legal_actions st ps h rc) := by
  have hcheck := check_mem_historyFilter rc h (nodup_raiseFilter st ps)
    (mem_raiseFilter_of_nonraise st ps (Or.inr (Or.inl rfl)))
  have hcall := call_mem_historyFilter rc h (nodup_raiseFilter st ps)
    (mem_raiseFilter_of_nonraise st ps (Or.inr (Or.inr rfl)))
  unfold get_nolimit_legal_actions
  refine ⟨streetRules_cover rc h, hcheck, hcall, ?_⟩
  rw [hcheck, hcall]
  by_cases hrc : rc = 0 <;> by_cases he : h = [] <;>
    by_cases ht : lastInCheckCall h <;>
      simp only [hrc, he, ht] <;> tauto

/-- Claim C1 counterexample: a call obtained from legal actions can owe more
than the stack (here it owes 100 with 50 remaining), so the committed
quantity exceeds the pre-action chips and the negative-stake branch fires
even though the caller obeyed the legal-actions contract. -/
theorem c1_call_exceeds_stack_counterexample :
    Action.call ∈ get_nolimit_legal_actions ⟨0, 2, 100, 0, 0, [0, 100]⟩
        [⟨50, PlayerStatus.alive⟩, ⟨0, PlayerStatus.allin⟩] [.allIn] 0 ∧
    actionQuantity ⟨0, 2, 100, 0, 0, [0, 100]⟩
        [⟨50, PlayerStatus.alive⟩, ⟨0, PlayerStatus.allin⟩] .call >
      (currentPlayer ⟨0, 2, 100, 0, 0, [0, 100]⟩
        [⟨50, PlayerStatus.alive⟩,
          ⟨0, PlayerStatus.allin⟩]).remained_chips ∧
    (proceed_round ⟨0, 2, 100, 0, 0, [0, 100]⟩
        [⟨50, PlayerStatus.alive⟩, ⟨0, PlayerStatus.allin⟩]
        .call).isNegativeStake = true := by
  refine ⟨by decide, by decide, by decide⟩

/-- Claim C1 (amended): for the five raise-family actions drawn from the
most recent legal-actions result, the acting player commits exactly the
computed quantity, that quantity never exceeds the pre-action stack, and
the negative-stake branch is unreachable; for the two checked pot-fraction
variants the commitment is strictly positive.  (For Call the quantity can
exceed the stack, as the counterexample shows, and for RaisePot,
RaiseTwoPot and AllIn the commitment can be zero.) -/
theorem c1_raise_commit_bounded (st : RoundState) (ps : List Player)
    (h : List Action) (rc : Nat) (a : Action)
    (hgp : st.game_pointer < ps.length)
    (hr : st.game_pointer < st.raised.length)
    (ha : a = .raiseQuarterPot ∨ a = .raiseHalfPot ∨ a = .raisePot ∨
      a = .raise2Pot ∨ a = .allIn)
    (hmem : a ∈ get_nolimit_legal_actions st ps h rc) :
    actionQuantity st ps a ≤ (currentPlayer st ps).remained_chips ∧
    ((proceed_round st ps a).playersOut.getD st.game_pointer
        default).remained_chips =
      (currentPlayer st ps).remained_chips - actionQuantity st ps a ∧
    (proceed_round st ps a).isNegativeStake = false ∧
    ((a = .raiseQuarterPot ∨ a = .raiseHalfPot) →
      0 < actionQuantity st ps a) := by
  have hmem2 : a ∈ raiseFilter st ps := by
    rcases ha with rfl | rfl | rfl | rfl | rfl <;>
      exact (historyFilter_mem_of_ne (by decide) (by decide)).mp hmem
  have hElse : ¬(callDiff st > 0 ∧
      callDiff st ≥ (currentPlayer st ps).remained_chips) := by
    intro hCap
    rw [raiseFilter_cap st ps hCap] at hmem2
    rcases ha with rfl | rfl | rfl | rfl | rfl <;> exact absurd hmem2 (by decide)
  rw [raiseFilter_else st ps hElse] at hmem2
  have hdiff := getD_le_listMax st.raised st.game_pointer hr
  have hqle : actionQuantity st ps a ≤ (currentPlayer st ps).remained_chips ∧
      ((a = .raiseQuarterPot ∨ a = .raiseHalfPot) →
        0 < actionQuantity st ps a) := by
    rcases ha with rfl | rfl | rfl | rfl | rfl
    · have hm := (raiseQuarterPot_mem_fa6_iff st ps).mp hmem2
      have hq : actionQuantity st ps .raiseQuarterPot =
          ((st.pot / 4 : Nat) : Int) := rfl
      rw [hq]
      exact ⟨by omega, fun _ => by omega⟩
    · have hm := (raiseHalfPot_mem_fa6_iff st ps).mp hmem2
      have hq : actionQuantity st ps .raiseHalfPot =
          ((st.pot / 2 : Nat) : Int) := rfl
      rw [hq]
      exact ⟨by omega, fun _ => by omega⟩
    · have hm := (raisePot_mem_fa6_iff st ps).mp hmem2
      have hq : actionQuantity st ps .raisePot = (st.pot : Int) := rfl
      rw [hq]
      refine ⟨by omega, ?_⟩
      rintro (hcontra | hcontra) <;> cases hcontra
    · have hm := (raise2Pot_mem_fa6_iff st ps).mp hmem2
      have hq : actionQuantity st ps .raise2Pot =
          ((st.pot * 2 : Nat) : Int) := rfl
      rw [hq]
      refine ⟨by omega, ?_⟩
      rintro (hcontra | hcontra) <;> cases hcontra
    · have hq : actionQuantity st ps .allIn =
          (currentPlayer st ps).remained_chips := rfl
      rw [hq]
      refine ⟨le_refl _, ?_⟩
      rintro (hcontra | hcontra) <;> cases hcontra
  have hlt : ¬((moveStep st ps a).2.remained_chips < 0) := by
    rw [moveStep_chips]
    have := hqle.1
    omega
  have hfields := proceed_round_fields st ps a hlt
  refine ⟨hqle.1, ?_, hfields.2.2.2.2.2, hqle.2⟩
  rw [hfields.2.2.2.2.1]
  unfold postPlayers
  rw [getD_set_self ps st.game_pointer _ default hgp, promoteAllin_chips,
    moveStep_chips]

/-- Witness for C1: a half-pot raise of 20 from a 40 pot with a 100-chip
stack commits 20 and cannot fire the negative-stake branch. -/
theorem c1_raise_commit_witness :
    (proceed_round ⟨0, 2, 40, 0, 0, [0, 0]⟩
        [⟨100, PlayerStatus.alive⟩, ⟨100, PlayerStatus.alive⟩]
        .raiseHalfPot).isNegativeStake = false ∧
      actionQuantity ⟨0, 2, 40, 0, 0, [0, 0]⟩
        [⟨100, PlayerStatus.alive⟩, ⟨100, PlayerStatus.alive⟩]
        .raiseHalfPot = 20 :=
  have h := c1_raise_commit_bounded ⟨0, 2, 40, 0, 0, [0, 0]⟩
    [⟨100, PlayerStatus.alive⟩, ⟨100, PlayerStatus.alive⟩] [] 0
    .raiseHalfPot (by decide) (by decide) (by decide) (by decide)
  ⟨h.2.2.1, by decide⟩

/-- Claim C3: on a freshly started round (checks_or_calls_count 0) with
inactive count k out of n seats, and a valid non-folded starting pointer
over non-negative stacks, repeated checks leave is_over false after every
prefix shorter than n - k and make it true after exactly n - k checks. -/
theorem c3_check_round_termination (st : RoundState) (ps : List Player)
    (n k : Nat)
    (hn : st.num_players = n) (hlen : ps.length = n)
    (hfresh : st.not_raise_num = 0)
    (hk : st.not_playing_num = (k : Int)) (hkn : k ≤ n)
    (hgp : st.game_pointer < n)
    (hnf : (currentPlayer st ps).status ≠ PlayerStatus.folded)
    (hch : ∀ p ∈ ps, 0 ≤ p.remained_chips) :
    (∀ j, j < n - k →
      ∃ st2 ps2, iterChecks j st ps = some (st2, ps2) ∧
        is_over st2 = false) ∧
    (∃ st2 ps2, iterChecks (n - k) st ps = some (st2, ps2) ∧
      is_over st2 = true) := by
  constructor
  · intro j hj
    obtain ⟨st2, ps2, hiter, hnum, hsum⟩ := iterChecks_spec j st ps
      (by omega) (by omega) hnf hch
    refine ⟨st2, ps2, hiter, ?_⟩
    cases hb : is_over st2 with
    | false => rfl
    | true =>
      have := (is_over_iff st2).mp hb
      rw [hnum, hn, hsum, hfresh, hk] at this
      omega
  · obtain ⟨st2, ps2, hiter, hnum, hsum⟩ := iterChecks_spec (n - k) st ps
      (by omega) (by omega) hnf hch
    refine ⟨st2, ps2, hiter, (is_over_iff st2).mpr ?_⟩
    rw [hnum, hn, hsum, hfresh, hk]
    omega

/-- Witness for C3: two live players, no inactive seats; one check is not
enough and two checks end the round. -/
theorem c3_check_round_termination_witness :
    (∃ st2 ps2, iterChecks 1 ⟨0, 2, 0, 0, 0, [0, 0]⟩
        [⟨10, PlayerStatus.alive⟩, ⟨10, PlayerStatus.alive⟩] =
        some (st2, ps2) ∧ is_over st2 = false) ∧
    (∃ st2 ps2, iterChecks 2 ⟨0, 2, 0, 0, 0, [0, 0]⟩
        [⟨10, PlayerStatus.alive⟩, ⟨10, PlayerStatus.alive⟩] =
        some (st2, ps2) ∧ is_over st2 = true) := by
  have h := c3_check_round_termination ⟨0, 2, 0, 0, 0, [0, 0]⟩
    [⟨10, PlayerStatus.alive⟩, ⟨10, PlayerStatus.alive⟩] 2 0 rfl rfl rfl
    (by decide) (by decide) (by decide) (by decide) (by decide)
  exact ⟨h.1 1 (by omega), h.2⟩

/-- Claim C4 counterexample: with one seat already folded, the acting player
(the only non-folded seat, satisfying the stated hypothesis) folds, after
which every seat is folded and the skip loop never terminates, modelled as
the diverge outcome. -/
theorem c4_last_player_folds_counterexample :
    (([⟨5, PlayerStatus.alive⟩, ⟨5, PlayerStatus.folded⟩] :
        List Player).getD 0 default).status ≠ PlayerStatus.folded ∧
    (proceed_round ⟨0, 2, 0, 0, 0, [0, 0]⟩
      [⟨5, PlayerStatus.alive⟩, ⟨5, PlayerStatus.folded⟩]
      .fold).isDiverge = true := by
  refine ⟨by decide, by decide⟩

/-- Claim C4 (amended): provided some seat other than the acting one is not
folded, proceed_round cannot diverge, and when it returns normally the new
pointer is the first seat after the acting one, cyclically, that is not
folded: folded seats are skipped and all-in seats are not. -/
theorem c4_pointer_skips_folded_only (st : RoundState) (ps : List Player)
    (a : Action)
    (hn : st.num_players = ps.length)
    (hgp : st.game_pointer < ps.length)
    (i : Nat) (hi : i < ps.length) (hine : i ≠ st.game_pointer)
    (hnf : (ps.getD i default).status ≠ PlayerStatus.folded) :
    (proceed_round st ps a).isDiverge = false ∧
    ∀ st2 ps2, proceed_round st ps a = .ok st2 ps2 →
      st2.game_pointer < ps.length ∧
      (ps2.getD st2.game_pointer default).status ≠ PlayerStatus.folded ∧
      ∃ d, st2.game_pointer = (st.game_pointer + 1 + d) % st.num_players ∧
        ∀ e, e < d →
          (ps2.getD ((st.game_pointer + 1 + e) % st.num_players)
            default).status = PlayerStatus.folded := by
  have hnpos : 0 < st.num_players := by omega
  have hn2 : (postState st ps a).num_players = st.num_players := by
    unfold postState
    rw [advanceState_num_players, moveStep_num_players]
  have hgp2 : (postState st ps a).game_pointer =
      (st.game_pointer + 1) % st.num_players := by
    unfold postState
    rw [advanceState_game_pointer, moveStep_num_players]
  have hstart : (st.game_pointer + 1) % st.num_players < st.num_players :=
    Nat.mod_lt _ hnpos
  have hseat : (postPlayers st ps a).getD i default = ps.getD i default := by
    unfold postPlayers
    exact getD_set_ne ps st.game_pointer i _ default (fun hc => hine hc.symm)
  obtain ⟨d0, hd0lt, hd0⟩ := exists_step_to st.num_players
    ((st.game_pointer + 1) % st.num_players) i hstart (by omega)
  have hnfseat : ((postPlayers st ps a).getD
      (((st.game_pointer + 1) % st.num_players + d0) % st.num_players)
      default).status ≠ PlayerStatus.folded := by
    rw [hd0, hseat]
    exact hnf
  obtain ⟨ptr, hskip⟩ := skipFolded_some (postPlayers st ps a)
    st.num_players st.num_players ((st.game_pointer + 1) % st.num_players)
    hstart ⟨d0, hd0lt, hnfseat⟩
  have hskip2 : skipFolded (postPlayers st ps a)
      (postState st ps a).num_players (postState st ps a).game_pointer
      (postState st ps a).num_players = some ptr := by
    rw [hn2, hgp2]
    exact hskip
  constructor
  · exact proceed_round_no_diverge st ps a (fun _ => ⟨ptr, hskip2⟩)
  · intro st2 ps2 hok
    obtain ⟨hps2, hskip3⟩ := proceed_round_ok_elim st ps a st2 ps2 hok
    rw [hn2, hgp2] at hskip3
    obtain ⟨hlt, hnf2, d, hd, hall⟩ := skipFolded_spec (postPlayers st ps a)
      st.num_players st.num_players ((st.game_pointer + 1) % st.num_players)
      st2.game_pointer hstart hskip3
    subst hps2
    refine ⟨by omega, hnf2, d, ?_, ?_⟩
    · rw [hd, Nat.mod_add_mod]
    · intro e he
      have := hall e he
      rw [Nat.mod_add_mod] at this
      exact this

/-- Witness for C4: two live players, a check by player 0 moves the pointer
one seat without diverging. -/
theorem c4_pointer_skips_folded_only_witness :
    (proceed_round ⟨0, 2, 0, 0, 0, [0, 0]⟩
      [⟨5, PlayerStatus.alive⟩, ⟨5, PlayerStatus.alive⟩]
      .check).isDiverge = false :=
  (c4_pointer_skips_folded_only ⟨0, 2, 0, 0, 0, [0, 0]⟩
    [⟨5, PlayerStatus.alive⟩, ⟨5, PlayerStatus.alive⟩] .check rfl (by decide)
    1 (by decide) (by decide) (by decide)).1

end Nolimitholdem
